import Mathlib

/-!
# Verification of the QTR reflectance-sensor library core

Shallow embedding of the algorithmic core of QTRSensors.cpp (the classic
class-hierarchy implementation): calibration (calibrateOnOrOff, calibrate),
normalization (readCalibrated), the line-position estimator (readLine), the
RC pulse-discharge capture loop (QTRSensorsRC::readPrivate), and the
emitter bank-select timing protocol (QTRDimmable::emitterBankSelect).

Modeling conventions, chosen to match the code's own assumptions:

* Integer widths follow the AVR Arduino targets the implementation was
  written for, as witnessed by its own comments (readLine keeps the
  denominator in an unsigned int "which is <= 64000" and the weighted
  total in an unsigned long "long before division"): unsigned int and
  signed int are 16 bits wide, long is 32 bits wide.  Arithmetic is done
  in Nat / Int with explicit reduction modulo 2^16 exactly where the C
  code can wrap.
* Hardware readings are oracle parameters: a raw reading pass is
  represented by the list of values it deposits in the caller's buffer,
  and the RC capture loop by the list of (elapsed time, line-reads-low)
  poll events it observes.
* Heap-allocated calibration arrays are Option (List Nat); none models an
  unallocated (null) array.  A run of readCalibrated that dereferences an
  unallocated array (undefined behavior in the C code) is modeled as the
  result none.
* Busy-wait timing is modeled with a logical microsecond clock: a delay
  advances the clock by exactly its argument and digital pin writes are
  instantaneous.
-/

/-- The read modes of the library (QTR_EMITTERS_OFF, _ON, _ON_AND_OFF,
_ODD_EVEN, _ODD_EVEN_AND_OFF, _MANUAL); the enum values themselves are
irrelevant to the semantics modeled here. -/
inductive QTRReadMode where
  | off
  | on
  | onAndOff
  | oddEven
  | oddEvenAndOff
  | manual
deriving DecidableEq, Repr

/-- Width of the 16-bit unsigned int type on the AVR targets. -/
def u16 : Nat := 65536

/-- Subtraction of 16-bit unsigned ints: a - b computed modulo 2^16
(congruent to a - b for arbitrary Nat representatives). -/
def usub16 (a b : Nat) : Nat := (a + (u16 - b % u16)) % u16

/-- Conversion of a 32-bit signed value into a 16-bit signed int, as
performed by avr-gcc when the C code stores the scaled quotient into
the local signed int x: reduction into the interval [-32768, 32767]. -/
def toInt16 (x : Int) : Int := (x + 32768) % 65536 - 32768

/-- The final clamp of readCalibrated (QTRSensors.cpp lines 266-269):
x below 0 becomes 0, x above 1000 becomes 1000. -/
def clamp1000 (x : Int) : Int :=
  if x < 0 then 0 else if 1000 < x then 1000 else x

/-- The per-sensor normalization in QTRSensors::readCalibrated
(QTRSensors.cpp lines 260-271): denominator = calmax - calmin in
unsigned 16-bit arithmetic; if the denominator is nonzero,
x = ((signed long)raw - calmin) * 1000 / denominator in 32-bit signed
arithmetic (truncating division), stored into a 16-bit signed int;
then x is clamped to [0, 1000]. -/
def normalizeValue (raw calmin calmax : Nat) : Nat :=
  (clamp1000
    (if usub16 calmax calmin ≠ 0 then
      toInt16 (Int.tdiv (((raw : Int) - (calmin : Int)) * 1000)
        ((usub16 calmax calmin : Nat) : Int))
    else 0)).toNat

/-- The combined-mode effective bound used by readCalibrated in the
QTR_EMITTERS_ON_AND_OFF branch (QTRSensors.cpp lines 249-257):
if the off-bound is below the on-bound there is no meaningful signal and
the bound clamps to _maxValue; otherwise it is
onBound + _maxValue - offBound in unsigned 16-bit arithmetic. -/
def combinedBound (onB offB maxV : Nat) : Nat :=
  if offB < onB then maxV else usub16 (onB + maxV) offB

/-- State of a QTRSensors object: sensor count, _maxValue (the timeout
for RC sensors, 1023 for analog), the four lazily allocated calibration
arrays, and _lastValue (the remembered line position). -/
structure QTRState where
  numSensors : Nat
  maxValue : Nat
  calibratedMinimumOn : Option (List Nat)
  calibratedMaximumOn : Option (List Nat)
  calibratedMinimumOff : Option (List Nat)
  calibratedMaximumOff : Option (List Nat)
  lastValue : Nat
deriving DecidableEq, Repr

/-- The calmin/calmax selection in readCalibrated's per-sensor loop
(QTRSensors.cpp lines 236-258): the ON bounds for QTR_EMITTERS_ON, the
OFF bounds for QTR_EMITTERS_OFF, and the combined formula for every
other mode (the else branch).  none models a dereference of an
unallocated array. -/
def calBounds (st : QTRState) (mode : QTRReadMode) (i : Nat) : Option (Nat × Nat) :=
  match mode with
  | .on =>
    match st.calibratedMinimumOn, st.calibratedMaximumOn with
    | some mnA, some mxA => some (mnA.getD i 0, mxA.getD i 0)
    | _, _ => none
  | .off =>
    match st.calibratedMinimumOff, st.calibratedMaximumOff with
    | some mnA, some mxA => some (mnA.getD i 0, mxA.getD i 0)
    | _, _ => none
  | _ =>
    match st.calibratedMinimumOn, st.calibratedMaximumOn,
          st.calibratedMinimumOff, st.calibratedMaximumOff with
    | some mnOnA, some mxOnA, some mnOffA, some mxOffA =>
      some (combinedBound (mnOnA.getD i 0) (mnOffA.getD i 0) st.maxValue,
            combinedBound (mxOnA.getD i 0) (mxOffA.getD i 0) st.maxValue)
    | _, _, _, _ => none

/-- QTRSensors::readCalibrated (QTRSensors.cpp lines 215-273).
raws is the row of raw values the embedded read() call deposits into the
first numSensors slots of the caller's buffer; buf is the buffer's prior
contents.  The two guards return the buffer untouched when the
calibration arrays needed by an ON/OFF/ON_AND_OFF mode are unallocated;
otherwise every targeted slot is overwritten with the normalized value.
The result none models a run that dereferences an unallocated
calibration array (undefined behavior in the C code). -/
def readCalibrated (st : QTRState) (mode : QTRReadMode) (raws buf : List Nat) :
    Option (List Nat) :=
  if (mode = .onAndOff ∨ mode = .off) ∧
      (st.calibratedMinimumOff = none ∨ st.calibratedMaximumOff = none) then
    some buf
  else if (mode = .onAndOff ∨ mode = .on) ∧
      (st.calibratedMinimumOn = none ∨ st.calibratedMaximumOn = none) then
    some buf
  else
    ((List.range st.numSensors).mapM
        (fun i => (calBounds st mode i).map
          (fun b => normalizeValue (raws.getD i 0) b.1 b.2))).map
      (fun vs => vs ++ buf.drop st.numSensors)

/-- The running maximum of one calibration pass block (QTRSensors.cpp
lines 184-197): the j = 0 iteration seeds the accumulator, later
iterations replace it whenever they read a strictly larger value. -/
def passMax : List Nat → Nat
  | [] => 0
  | v :: rest => rest.foldl (fun a b => if a < b then b else a) v

/-- The running minimum of one calibration pass block (QTRSensors.cpp
lines 184-197): the j = 0 iteration seeds the accumulator, later
iterations replace it whenever they read a strictly smaller value. -/
def passMin : List Nat → Nat
  | [] => 0
  | v :: rest => rest.foldl (fun a b => if b < a then b else a) v

/-- The values sensor i contributed across a block of read passes. -/
def column (reads : List (List Nat)) (i : Nat) : List Nat :=
  reads.map (fun r => r.getD i 0)

/-- QTRSensors::calibrateOnOrOff (QTRSensors.cpp lines 147-207) for one
bounds set.  Unallocated arrays are allocated and seeded with 0
(maximum) and _maxValue (minimum).  reads is the list of rows returned
by the read passes (the code performs exactly 10).  Per sensor, the
stored minimum drops to the block maximum only when the block maximum is
strictly below it, and the stored maximum rises to the block minimum
only when the block minimum strictly exceeds it.  Returns the new
(minimum array, maximum array). -/
def calibrateOnOrOff (minArrOpt maxArrOpt : Option (List Nat)) (n maxV : Nat)
    (reads : List (List Nat)) : List Nat × List Nat :=
  let maxArr := maxArrOpt.getD (List.replicate n 0)
  let minArr := minArrOpt.getD (List.replicate n maxV)
  ((List.range n).map (fun i =>
      let mx := passMax (column reads i)
      if mx < minArr.getD i 0 then mx else minArr.getD i 0),
   (List.range n).map (fun i =>
      let mn := passMin (column reads i)
      if maxArr.getD i 0 < mn then mn else maxArr.getD i 0))

/-- QTRSensors::calibrate (QTRSensors.cpp lines 129-145): calibrates the
ON bounds for modes ON and ON_AND_OFF, the OFF bounds for modes OFF and
ON_AND_OFF, and does nothing at all for any other mode.  readsOn and
readsOff are the rows the two possible pass blocks would observe. -/
def calibrate (st : QTRState) (mode : QTRReadMode)
    (readsOn readsOff : List (List Nat)) : QTRState :=
  let st1 :=
    if mode = .onAndOff ∨ mode = .on then
      let p := calibrateOnOrOff st.calibratedMinimumOn st.calibratedMaximumOn
        st.numSensors st.maxValue readsOn
      { st with calibratedMinimumOn := some p.1, calibratedMaximumOn := some p.2 }
    else st
  if mode = .onAndOff ∨ mode = .off then
    let p := calibrateOnOrOff st1.calibratedMinimumOff st1.calibratedMaximumOff
      st1.numSensors st1.maxValue readsOff
    { st1 with calibratedMinimumOff := some p.1, calibratedMaximumOff := some p.2 }
  else st1

/-- The (possibly inverted) sensor value used by readLine
(QTRSensors.cpp lines 309-311): value = 1000 - value in white-line mode.
For calibrated values (at most 1000) this Nat computation agrees with
the C int computation. -/
def lineValue (whiteLine : Bool) (v : Nat) : Nat :=
  if whiteLine then 1000 - v else v

/-- The accumulation loop of readLine (QTRSensors.cpp lines 308-323):
returns (on_line, avg, sum) where on_line records whether any value
exceeded 200, avg accumulates value * (i * 1000) and sum accumulates
value over the sensors whose value exceeds the noise floor of 50. -/
def lineScan (whiteLine : Bool) (values : List Nat) (n : Nat) : Bool × Nat × Nat :=
  (List.range n).foldl
    (fun acc i =>
      let v := lineValue whiteLine (values.getD i 0)
      (acc.1 || decide (200 < v),
       (if 50 < v then acc.2.1 + v * (i * 1000) else acc.2.1),
       (if 50 < v then acc.2.2 + v else acc.2.2)))
    (false, 0, 0)

/-- The estimation step of QTRSensors::readLine (QTRSensors.cpp lines
298-339), applied to the row of calibrated values: if no value exceeded
200, return 0 or (n-1)*1000 according to which side of center the line
was last seen, leaving _lastValue unchanged; otherwise return avg/sum
and store it in _lastValue.  Result is (position, new _lastValue). -/
def readLinePrivate (n : Nat) (values : List Nat) (whiteLine : Bool)
    (lastValue : Nat) : Nat × Nat :=
  let s := lineScan whiteLine values n
  if s.1 = false then
    ((if lastValue < (n - 1) * 1000 / 2 then 0 else (n - 1) * 1000), lastValue)
  else
    (s.2.1 / s.2.2, s.2.1 / s.2.2)

/-- QTRSensors::readLine (QTRSensors.cpp lines 295-340): readCalibrated
followed by the estimation loop.  Result is (position, calibrated
buffer, new _lastValue); none again models undefined behavior inside
readCalibrated. -/
def readLine (st : QTRState) (mode : QTRReadMode) (raws buf : List Nat)
    (whiteLine : Bool) : Option (Nat × List Nat × Nat) :=
  (readCalibrated st mode raws buf).map
    (fun vals =>
      let r := readLinePrivate st.numSensors vals whiteLine st.lastValue
      (r.1, vals, r.2))

/-- The per-line RC pulse capture of QTRSensorsRC::readPrivate
(QTRSensors.cpp lines 615-639) for one targeted sensor line: the value
starts at _maxValue (the timeout); each poll event carries the elapsed
time and whether the digital read returned LOW, and records the time
only when the line reads LOW and the time is below the current value. -/
def rcCapture (timeout : Nat) (polls : List (Nat × Bool)) : Nat :=
  polls.foldl (fun v p => if p.2 = true ∧ p.1 < v then p.1 else v) timeout

/-- One bounded busy-wait loop iteration count is at most target, so
fuel = target always suffices; the loop body mirrors
while (micros() - start < bound) delayMicroseconds(step). -/
def loopUntil : Nat → Nat → Nat → Nat → Nat
  | 0, now, _, _ => now
  | fuel + 1, now, target, step =>
    if now < target then loopUntil fuel (now + step) target step else now

/-- The busy-wait until the clock reaches target, advancing by step each
iteration (delayMicroseconds(step) inside the while loop). -/
def waitLoop (now target step : Nat) : Nat :=
  loopUntil target now target step

/-- Time model of QTRDimmable::emittersOn with wait = true
(QTRSensors.cpp lines 469-509): if the bank has no control pin, return
immediately; otherwise record turnOnStart, spend 2 microseconds per
dimming-level toggle, then busy-wait (in 10 microsecond steps) until at
least 300 microseconds have elapsed since turnOnStart. -/
def emittersOnTime (pinValid : Bool) (clock dim : Nat) : Nat :=
  if pinValid then waitLoop (clock + 2 * dim) (clock + 300) 10 else clock

/-- Time model of QTRDimmable::emitterBankSelect (QTRSensors.cpp lines
516-543): the off-bank is commanded off without waiting (instantaneous
in this model) and turnOffStart is recorded; the on-bank is turned on
with its own 300 microsecond wait; finally the loop busy-waits (in 10
microsecond steps) until at least 1200 microseconds have elapsed since
turnOffStart. -/
def emitterBankSelectTime (onPinValid : Bool) (clock dim : Nat) : Nat :=
  let turnOffStart := clock
  let t1 := emittersOnTime onPinValid clock dim
  waitLoop t1 (turnOffStart + 1200) 10

/-- The normalization formula as the specification states it:
clamp((raw - calmin) * 1000 / (calmax - calmin), 0, 1000) over the
integers, with C-style truncating division. -/
def specNormalize (raw calmin calmax : Int) : Int :=
  max 0 (min 1000 (Int.tdiv ((raw - calmin) * 1000) (calmax - calmin)))

/-- The weighted sum the specification describes for readLine:
value * (i * 1000) summed over the sensors whose value exceeds 50. -/
def weightedSum (whiteLine : Bool) (values : List Nat) (n : Nat) : Nat :=
  ((List.range n).map (fun i =>
    if 50 < lineValue whiteLine (values.getD i 0) then
      lineValue whiteLine (values.getD i 0) * (i * 1000)
    else 0)).sum

/-- The denominator the specification describes for readLine:
value summed over the sensors whose value exceeds 50. -/
def valueSum (whiteLine : Bool) (values : List Nat) (n : Nat) : Nat :=
  ((List.range n).map (fun i =>
    if 50 < lineValue whiteLine (values.getD i 0) then
      lineValue whiteLine (values.getD i 0)
    else 0)).sum

/-- Whether any of the first n (possibly inverted) values exceeds 200. -/
def anyOver200 (whiteLine : Bool) (values : List Nat) (n : Nat) : Bool :=
  (List.range n).any (fun i => decide (200 < lineValue whiteLine (values.getD i 0)))

/-! ## Helper lemmas -/

theorem getD_map_range (f : Nat → Nat) {n i : Nat} (h : i < n) :
    ((List.range n).map f).getD i 0 = f i := by
  simp [List.getD_eq_getElem?_getD, List.getElem?_map, List.getElem?_range, h]

theorem foldl_min_spec (l : List Nat) (v : Nat) :
    (l.foldl (fun a b => if b < a then b else a) v = v ∨
      l.foldl (fun a b => if b < a then b else a) v ∈ l) ∧
    l.foldl (fun a b => if b < a then b else a) v ≤ v ∧
    ∀ x ∈ l, l.foldl (fun a b => if b < a then b else a) v ≤ x := by
  induction l generalizing v with
  | nil => exact ⟨Or.inl rfl, Nat.le_refl v, by intro x hx; cases hx⟩
  | cons b bs ih =>
    obtain ⟨hmem, hle, hall⟩ := ih (if b < v then b else v)
    have hlv : (if b < v then b else v) ≤ v := by split <;> omega
    have hlb : (if b < v then b else v) ≤ b := by split <;> omega
    refine ⟨?_, ?_, ?_⟩
    · rcases hmem with h | h
      · by_cases hb : b < v
        · right; rw [List.foldl_cons, h, if_pos hb]; exact List.mem_cons_self b bs
        · left; rw [List.foldl_cons, h, if_neg hb]
      · right; exact List.mem_cons_of_mem b h
    · exact Nat.le_trans hle hlv
    · intro x hx
      rcases List.mem_cons.mp hx with rfl | hx
      · exact Nat.le_trans hle hlb
      · exact hall x hx

theorem foldl_max_spec (l : List Nat) (v : Nat) :
    (l.foldl (fun a b => if a < b then b else a) v = v ∨
      l.foldl (fun a b => if a < b then b else a) v ∈ l) ∧
    v ≤ l.foldl (fun a b => if a < b then b else a) v ∧
    ∀ x ∈ l, x ≤ l.foldl (fun a b => if a < b then b else a) v := by
  induction l generalizing v with
  | nil => exact ⟨Or.inl rfl, Nat.le_refl v, by intro x hx; cases hx⟩
  | cons b bs ih =>
    obtain ⟨hmem, hle, hall⟩ := ih (if v < b then b else v)
    have hlv : v ≤ (if v < b then b else v) := by split <;> omega
    have hlb : b ≤ (if v < b then b else v) := by split <;> omega
    refine ⟨?_, ?_, ?_⟩
    · rcases hmem with h | h
      · by_cases hb : v < b
        · right; rw [List.foldl_cons, h, if_pos hb]; exact List.mem_cons_self b bs
        · left; rw [List.foldl_cons, h, if_neg hb]
      · right; exact List.mem_cons_of_mem b h
    · exact Nat.le_trans hlv hle
    · intro x hx
      rcases List.mem_cons.mp hx with rfl | hx
      · exact Nat.le_trans hlb hle
      · exact hall x hx

theorem passMin_spec (l : List Nat) (h : l ≠ []) :
    passMin l ∈ l ∧ ∀ x ∈ l, passMin l ≤ x := by
  match l with
  | [] => exact absurd rfl h
  | v :: rest =>
    obtain ⟨hmem, hle, hall⟩ := foldl_min_spec rest v
    refine ⟨?_, ?_⟩
    · rcases hmem with he | he
      · rw [passMin, he]; exact List.mem_cons_self v rest
      · exact List.mem_cons_of_mem v (by rw [passMin]; exact he)
    · intro x hx
      rcases List.mem_cons.mp hx with rfl | hx
      · exact hle
      · exact hall x hx

theorem passMax_spec (l : List Nat) (h : l ≠ []) :
    passMax l ∈ l ∧ ∀ x ∈ l, x ≤ passMax l := by
  match l with
  | [] => exact absurd rfl h
  | v :: rest =>
    obtain ⟨hmem, hle, hall⟩ := foldl_max_spec rest v
    refine ⟨?_, ?_⟩
    · rcases hmem with he | he
      · rw [passMax, he]; exact List.mem_cons_self v rest
      · exact List.mem_cons_of_mem v (by rw [passMax]; exact he)
    · intro x hx
      rcases List.mem_cons.mp hx with rfl | hx
      · exact hle
      · exact hall x hx

theorem lineScan_eq (w : Bool) (values : List Nat) (n : Nat) :
    lineScan w values n =
      (anyOver200 w values n, weightedSum w values n, valueSum w values n) := by
  induction n with
  | zero => rfl
  | succ n ih =>
    simp only [lineScan, anyOver200, weightedSum, valueSum, List.range_succ,
      List.foldl_append, List.map_append, List.any_append, List.sum_append] at ih ⊢
    rw [ih]
    by_cases hc : 50 < lineValue w (values[n]?.getD 0) <;> simp [hc]

theorem anyOver200_iff (w : Bool) (values : List Nat) (n : Nat) :
    anyOver200 w values n = true ↔
      ∃ i, i < n ∧ 200 < lineValue w (values.getD i 0) := by
  simp only [anyOver200, List.any_eq_true, List.mem_range, decide_eq_true_eq]

theorem rcFold_le (polls : List (Nat × Bool)) (v : Nat) :
    polls.foldl (fun v p => if p.2 = true ∧ p.1 < v then p.1 else v) v ≤ v := by
  induction polls generalizing v with
  | nil => exact Nat.le_refl v
  | cons p ps ih =>
    rw [List.foldl_cons]
    refine Nat.le_trans (ih _) ?_
    split <;> omega

theorem rcFold_allFalse (polls : List (Nat × Bool)) (v : Nat)
    (h : ∀ p ∈ polls, p.2 = false) :
    polls.foldl (fun v p => if p.2 = true ∧ p.1 < v then p.1 else v) v = v := by
  induction polls generalizing v with
  | nil => rfl
  | cons p ps ih =>
    rw [List.foldl_cons]
    have hp : p.2 = false := h p (List.mem_cons_self p ps)
    rw [if_neg (by simp [hp])]
    exact ih v (fun q hq => h q (List.mem_cons_of_mem p hq))

theorem loopUntil_spec (step : Nat) (hs : 0 < step) :
    ∀ fuel now target, target ≤ now + fuel * step →
      now ≤ loopUntil fuel now target step ∧
      target ≤ loopUntil fuel now target step ∧
      (target ≤ now → loopUntil fuel now target step = now) ∧
      (now < target → loopUntil fuel now target step < target + step) := by
  intro fuel
  induction fuel with
  | zero =>
    intro now target hfuel
    rw [Nat.zero_mul] at hfuel
    simp only [loopUntil]
    exact ⟨Nat.le_refl now, by omega, fun _ => trivial, fun h => absurd h (by omega)⟩
  | succ fuel ih =>
    intro now target hfuel
    rw [Nat.succ_mul] at hfuel
    simp only [loopUntil]
    by_cases h : now < target
    · rw [if_pos h]
      obtain ⟨ih1, ih2, ih3, ih4⟩ := ih (now + step) target (by omega)
      refine ⟨by omega, ih2, by omega, ?_⟩
      intro _
      by_cases h2 : target ≤ now + step
      · rw [ih3 h2]; omega
      · exact ih4 (by omega)
    · rw [if_neg h]
      omega

theorem waitLoop_spec (now target step : Nat) (hs : 0 < step) :
    now ≤ waitLoop now target step ∧
    target ≤ waitLoop now target step ∧
    (target ≤ now → waitLoop now target step = now) ∧
    (now < target → waitLoop now target step < target + step) :=
  loopUntil_spec step hs target now target
    (Nat.le_trans (Nat.le_mul_of_pos_right target hs) (Nat.le_add_left _ _))

theorem usub16_eq (a b : Nat) (hba : b ≤ a) (hd : a - b < u16) :
    usub16 a b = a - b := by
  simp only [usub16, u16] at *
  omega

theorem usub16_self_eq_zero (a : Nat) : usub16 a a = 0 := by
  simp only [usub16, u16]
  omega

/-! ## Claim theorems -/

/-- C7: the raw value captured by the RC acquisition pass for a targeted
sensor line always lies in [0, timeout], and a line whose digital read
never returns LOW within the timeout window is reported as exactly the
timeout value. -/
theorem rcCapture_range_and_timeout_edge (timeout : Nat) (polls : List (Nat × Bool)) :
    rcCapture timeout polls ≤ timeout ∧
    ((∀ p ∈ polls, p.2 = false) → rcCapture timeout polls = timeout) := by
  constructor
  · exact rcFold_le polls timeout
  · intro h
    exact rcFold_allFalse polls timeout h

/-- Witness for C7 at a concrete poll trace in which the line never
reads LOW. -/
theorem rcCapture_range_and_timeout_edge_witness :
    (∀ p ∈ [((3 : Nat), false), ((9 : Nat), false)], p.2 = false) ∧
    rcCapture 2500 [(3, false), (9, false)] = 2500 :=
  ⟨by decide,
   (rcCapture_range_and_timeout_edge 2500 [(3, false), (9, false)]).2 (by decide)⟩

/-- C9: emitterBankSelect on a dual-bank dimmable configuration never
returns before 1200 microseconds have elapsed since the off-bank was
commanded off, and the on-bank turn-on wait is overlapped with (not
added to) that 1200 microsecond wait: the return time never exceeds the
maximum of the on-bank completion time and the 1200 microsecond mark
(plus one 10 microsecond polling step). -/
theorem emitterBankSelect_timing (clock dim : Nat) :
    clock + 1200 ≤ emitterBankSelectTime true clock dim ∧
    emittersOnTime true clock dim ≤ emitterBankSelectTime true clock dim ∧
    emitterBankSelectTime true clock dim ≤
      max (emittersOnTime true clock dim) (clock + 1209) := by
  obtain ⟨h1, h2, h3, h4⟩ :=
    waitLoop_spec (emittersOnTime true clock dim) (clock + 1200) 10 (by omega)
  refine ⟨h2, h1, ?_⟩
  simp only [emitterBankSelectTime]
  by_cases hcmp : emittersOnTime true clock dim < clock + 1200
  · have hlt := h4 hcmp
    exact Nat.le_trans (by omega) (Nat.le_max_right _ _)
  · have heq := h3 (by omega)
    rw [heq]
    exact Nat.le_max_left _ _

/-- C5: for a row of calibrated values in [0, 1000], the readLine
estimation loop sets on_line exactly when some (possibly inverted) value
exceeds 200, accumulates the weighted sum of value * (i * 1000) and the
denominator sum of value over exactly the sensors whose value exceeds
50, and on the on-line path returns the integer quotient of the two; for
4 sensors with all values 0 except sensor 2 = 1000 the result is 2000. -/
theorem readLine_weighted_average (w : Bool) (values : List Nat) (n lastValue : Nat)
    (hvals : ∀ i, i < n → values.getD i 0 ≤ 1000) :
    ((lineScan w values n).1 = true ↔
      ∃ i, i < n ∧ 200 < lineValue w (values.getD i 0)) ∧
    (lineScan w values n).2.1 = weightedSum w values n ∧
    (lineScan w values n).2.2 = valueSum w values n ∧
    ((∃ i, i < n ∧ 200 < lineValue w (values.getD i 0)) →
      readLinePrivate n values w lastValue =
        (weightedSum w values n / valueSum w values n,
         weightedSum w values n / valueSum w values n)) ∧
    readLinePrivate 4 [0, 0, 1000, 0] false 0 = (2000, 2000) := by
  have hs := lineScan_eq w values n
  refine ⟨?_, ?_, ?_, ?_, by decide⟩
  · rw [hs]; exact anyOver200_iff w values n
  · rw [hs]
  · rw [hs]
  · intro hex
    have hon : anyOver200 w values n = true := (anyOver200_iff w values n).mpr hex
    unfold readLinePrivate
    rw [hs, hon]
    simp

/-- Witness for C5 at the 4-sensor row with only sensor 2 active. -/
theorem readLine_weighted_average_witness :
    (∀ i, i < 4 → (([0, 0, 1000, 0] : List Nat)).getD i 0 ≤ 1000) ∧
    readLinePrivate 4 [0, 0, 1000, 0] false 0 = (2000, 2000) :=
  ⟨by decide,
   (readLine_weighted_average false [0, 0, 1000, 0] 4 0 (by decide)).2.2.2.2⟩

/-- C6: when no (possibly inverted) value exceeds 200 (line lost),
readLine returns 0 when the remembered position is strictly left of
center ((n - 1) * 1000 / 2) and (n - 1) * 1000 otherwise, and it leaves
the remembered position unchanged; for 4 sensors, a loss after last
position 500 yields 0 and after last position 2500 yields 3000. -/
theorem readLine_loss_hysteresis (w : Bool) (values : List Nat) (n lastValue : Nat)
    (hn : 1 ≤ n)
    (hlow : ∀ i, i < n → lineValue w (values.getD i 0) ≤ 200) :
    readLinePrivate n values w lastValue =
      ((if lastValue < (n - 1) * 1000 / 2 then 0 else (n - 1) * 1000), lastValue) ∧
    readLinePrivate 4 [0, 0, 0, 0] false 500 = (0, 500) ∧
    readLinePrivate 4 [0, 0, 0, 0] false 2500 = (3000, 2500) := by
  refine ⟨?_, by decide, by decide⟩
  have hfalse : anyOver200 w values n = false := by
    cases hA : anyOver200 w values n
    · rfl
    · obtain ⟨i, hi, h200⟩ := (anyOver200_iff w values n).mp hA
      have := hlow i hi
      omega
  unfold readLinePrivate
  rw [lineScan_eq, hfalse]
  simp

/-- Witness for C6 at a concrete all-quiet row with the line last seen
left of center. -/
theorem readLine_loss_hysteresis_witness :
    (1 ≤ 4) ∧
    (∀ i, i < 4 → lineValue false (([0, 0, 0, 0] : List Nat).getD i 0) ≤ 200) ∧
    readLinePrivate 4 [0, 0, 0, 0] false 500 =
      ((if 500 < (4 - 1) * 1000 / 2 then 0 else (4 - 1) * 1000), 500) :=
  ⟨by decide, by decide,
   (readLine_loss_hysteresis false [0, 0, 0, 0] 4 500 (by decide) (by decide)).1⟩

/-- C10: on the on-line path (some possibly-inverted value exceeds 200)
that value also exceeds the noise floor of 50, so the denominator sum is
strictly positive and the division cannot be by zero; the resulting
position is at most (n - 1) * 1000. -/
theorem readLine_division_safety (w : Bool) (values : List Nat) (n lastValue : Nat)
    (hn : n ≤ 16) (hvals : ∀ i, i < n → values.getD i 0 ≤ 1000)
    (hon : ∃ i, i < n ∧ 200 < lineValue w (values.getD i 0)) :
    0 < valueSum w values n ∧
    (readLinePrivate n values w lastValue).1 ≤ (n - 1) * 1000 := by
  obtain ⟨i, hi, h200⟩ := hon
  have hmem : lineValue w (values.getD i 0) ∈
      (List.range n).map (fun j =>
        if 50 < lineValue w (values.getD j 0) then lineValue w (values.getD j 0)
        else 0) :=
    List.mem_map.mpr ⟨i, List.mem_range.mpr hi, by rw [if_pos (by omega)]⟩
  have hpos : 0 < valueSum w values n := by
    have hle := List.single_le_sum (l := (List.range n).map (fun j =>
      if 50 < lineValue w (values.getD j 0) then lineValue w (values.getD j 0)
      else 0)) (fun x _ => Nat.zero_le x) _ hmem
    unfold valueSum
    omega
  have hub : weightedSum w values n ≤ valueSum w values n * ((n - 1) * 1000) := by
    unfold weightedSum valueSum
    rw [← List.sum_map_mul_right]
    refine List.sum_le_sum ?_
    intro j hj
    by_cases hc : 50 < lineValue w (values.getD j 0)
    · rw [if_pos hc, if_pos hc]
      have hj1 : j ≤ n - 1 := by
        have := List.mem_range.mp hj
        omega
      exact Nat.mul_le_mul_left _ (Nat.mul_le_mul_right _ hj1)
    · rw [if_neg hc, if_neg hc, Nat.zero_mul]
  have honline : anyOver200 w values n = true :=
    (anyOver200_iff w values n).mpr ⟨i, hi, h200⟩
  refine ⟨hpos, ?_⟩
  unfold readLinePrivate
  rw [lineScan_eq, honline]
  simp only [Bool.true_eq_false, if_false]
  calc weightedSum w values n / valueSum w values n
      ≤ valueSum w values n * ((n - 1) * 1000) / valueSum w values n :=
        Nat.div_le_div_right hub
    _ = (n - 1) * 1000 := Nat.mul_div_cancel_left _ hpos

/-- Witness for C10 at the 4-sensor row with only sensor 2 active. -/
theorem readLine_division_safety_witness :
    (4 ≤ 16) ∧
    (∀ i, i < 4 → (([0, 0, 1000, 0] : List Nat)).getD i 0 ≤ 1000) ∧
    (∃ i, i < 4 ∧ 200 < lineValue false (([0, 0, 1000, 0] : List Nat).getD i 0)) ∧
    (0 < valueSum false [0, 0, 1000, 0] 4 ∧
      (readLinePrivate 4 [0, 0, 1000, 0] false 0).1 ≤ (4 - 1) * 1000) :=
  ⟨by decide, by decide, by decide,
   readLine_division_safety false [0, 0, 1000, 0] 4 0 (by decide) (by decide)
     (by decide)⟩

/-- C1: after one calibrateOnOrOff run over 10 read passes, the stored
maximum for sensor i rises (to the minimum over the 10 passes) exactly
when the minimum of the 10 passes strictly exceeds the previously stored
maximum, and the stored minimum drops (to the maximum of the 10 passes)
exactly when the maximum of the 10 passes is strictly below the
previously stored minimum; in particular one pass at or below the
current ceiling keeps the ceiling unchanged.  passMin and passMax are
shown to really be the minimum and maximum of the column of 10
readings. -/
theorem calibrateOnOrOff_sustained_evidence (minArr maxArr : List Nat)
    (n maxV i : Nat) (reads : List (List Nat))
    (hreads : reads.length = 10) (hi : i < n) :
    (passMin (column reads i) ∈ column reads i ∧
      ∀ x ∈ column reads i, passMin (column reads i) ≤ x) ∧
    (passMax (column reads i) ∈ column reads i ∧
      ∀ x ∈ column reads i, x ≤ passMax (column reads i)) ∧
    (calibrateOnOrOff (some minArr) (some maxArr) n maxV reads).2.getD i 0 =
      (if maxArr.getD i 0 < passMin (column reads i) then passMin (column reads i)
       else maxArr.getD i 0) ∧
    (calibrateOnOrOff (some minArr) (some maxArr) n maxV reads).1.getD i 0 =
      (if passMax (column reads i) < minArr.getD i 0 then passMax (column reads i)
       else minArr.getD i 0) ∧
    ((∃ r ∈ reads, r.getD i 0 ≤ maxArr.getD i 0) →
      (calibrateOnOrOff (some minArr) (some maxArr) n maxV reads).2.getD i 0 =
        maxArr.getD i 0) ∧
    ((∃ r ∈ reads, minArr.getD i 0 ≤ r.getD i 0) →
      (calibrateOnOrOff (some minArr) (some maxArr) n maxV reads).1.getD i 0 =
        minArr.getD i 0) := by
  have hne : column reads i ≠ [] := by
    intro hcol
    have hnil : reads = [] := by
      cases reads with
      | nil => rfl
      | cons r rs => simp [column] at hcol
    rw [hnil] at hreads
    simp at hreads
  obtain ⟨hminmem, hminle⟩ := passMin_spec _ hne
  obtain ⟨hmaxmem, hmaxle⟩ := passMax_spec _ hne
  have hmaxside : (calibrateOnOrOff (some minArr) (some maxArr) n maxV reads).2.getD i 0 =
      (if maxArr.getD i 0 < passMin (column reads i) then passMin (column reads i)
       else maxArr.getD i 0) := by
    simp only [calibrateOnOrOff, Option.getD_some]
    exact getD_map_range _ hi
  have hminside : (calibrateOnOrOff (some minArr) (some maxArr) n maxV reads).1.getD i 0 =
      (if passMax (column reads i) < minArr.getD i 0 then passMax (column reads i)
       else minArr.getD i 0) := by
    simp only [calibrateOnOrOff, Option.getD_some]
    exact getD_map_range _ hi
  refine ⟨⟨hminmem, hminle⟩, ⟨hmaxmem, hmaxle⟩, hmaxside, hminside, ?_, ?_⟩
  · rintro ⟨r, hr, hle⟩
    have hcolmem : r.getD i 0 ∈ column reads i :=
      List.mem_map_of_mem (fun r => r.getD i 0) hr
    have := hminle _ hcolmem
    rw [hmaxside, if_neg (by omega)]
  · rintro ⟨r, hr, hle⟩
    have hcolmem : r.getD i 0 ∈ column reads i :=
      List.mem_map_of_mem (fun r => r.getD i 0) hr
    have := hmaxle _ hcolmem
    rw [hminside, if_neg (by omega)]

/-- Witness for C1: a single sensor with stored bounds (min 50, max 10)
and 10 passes reading 20..29, which raise the ceiling to 20 and drop the
floor to 29. -/
theorem calibrateOnOrOff_sustained_evidence_witness :
    (([[20], [21], [22], [23], [24], [25], [26], [27], [28], [29]] :
        List (List Nat)).length = 10) ∧
    (0 < 1) ∧
    ((passMin (column [[20], [21], [22], [23], [24], [25], [26], [27], [28], [29]] 0) ∈
        column [[20], [21], [22], [23], [24], [25], [26], [27], [28], [29]] 0 ∧
      ∀ x ∈ column [[20], [21], [22], [23], [24], [25], [26], [27], [28], [29]] 0,
        passMin (column [[20], [21], [22], [23], [24], [25], [26], [27], [28], [29]] 0) ≤ x) ∧
    (passMax (column [[20], [21], [22], [23], [24], [25], [26], [27], [28], [29]] 0) ∈
        column [[20], [21], [22], [23], [24], [25], [26], [27], [28], [29]] 0 ∧
      ∀ x ∈ column [[20], [21], [22], [23], [24], [25], [26], [27], [28], [29]] 0,
        x ≤ passMax (column [[20], [21], [22], [23], [24], [25], [26], [27], [28], [29]] 0)) ∧
    (calibrateOnOrOff (some [50]) (some [10]) 1 100
        [[20], [21], [22], [23], [24], [25], [26], [27], [28], [29]]).2.getD 0 0 =
      (if ([10] : List Nat).getD 0 0 <
          passMin (column [[20], [21], [22], [23], [24], [25], [26], [27], [28], [29]] 0) then
        passMin (column [[20], [21], [22], [23], [24], [25], [26], [27], [28], [29]] 0)
       else ([10] : List Nat).getD 0 0) ∧
    (calibrateOnOrOff (some [50]) (some [10]) 1 100
        [[20], [21], [22], [23], [24], [25], [26], [27], [28], [29]]).1.getD 0 0 =
      (if passMax (column [[20], [21], [22], [23], [24], [25], [26], [27], [28], [29]] 0) <
          ([50] : List Nat).getD 0 0 then
        passMax (column [[20], [21], [22], [23], [24], [25], [26], [27], [28], [29]] 0)
       else ([50] : List Nat).getD 0 0) ∧
    ((∃ r ∈ [[20], [21], [22], [23], [24], [25], [26], [27], [28], [29]],
        r.getD 0 0 ≤ ([10] : List Nat).getD 0 0) →
      (calibrateOnOrOff (some [50]) (some [10]) 1 100
          [[20], [21], [22], [23], [24], [25], [26], [27], [28], [29]]).2.getD 0 0 =
        ([10] : List Nat).getD 0 0) ∧
    ((∃ r ∈ [[20], [21], [22], [23], [24], [25], [26], [27], [28], [29]],
        ([50] : List Nat).getD 0 0 ≤ r.getD 0 0) →
      (calibrateOnOrOff (some [50]) (some [10]) 1 100
          [[20], [21], [22], [23], [24], [25], [26], [27], [28], [29]]).1.getD 0 0 =
        ([50] : List Nat).getD 0 0)) :=
  ⟨rfl, by decide,
   calibrateOnOrOff_sustained_evidence [50] [10] 1 100 0
     [[20], [21], [22], [23], [24], [25], [26], [27], [28], [29]] rfl (by decide)⟩

/-- C4: in the on-and-off read mode, the effective calibration bounds
readCalibrated derives for sensor i are calmin = maxReading when
off.minimum < on.minimum and on.minimum + maxReading - off.minimum
otherwise, and calmax = maxReading when off.maximum < on.maximum and
on.maximum + maxReading - off.maximum otherwise. -/
theorem readCalibrated_combined_bounds (st : QTRState) (i : Nat)
    (mnOnA mxOnA mnOffA mxOffA : List Nat)
    (h1 : st.calibratedMinimumOn = some mnOnA)
    (h2 : st.calibratedMaximumOn = some mxOnA)
    (h3 : st.calibratedMinimumOff = some mnOffA)
    (h4 : st.calibratedMaximumOff = some mxOffA)
    (hb1 : mnOnA.getD i 0 ≤ st.maxValue) (hb2 : mnOffA.getD i 0 ≤ st.maxValue)
    (hb3 : mxOnA.getD i 0 ≤ st.maxValue) (hb4 : mxOffA.getD i 0 ≤ st.maxValue)
    (hmv : st.maxValue < u16) :
    calBounds st .onAndOff i =
      some ((if mnOffA.getD i 0 < mnOnA.getD i 0 then st.maxValue
             else mnOnA.getD i 0 + st.maxValue - mnOffA.getD i 0),
            (if mxOffA.getD i 0 < mxOnA.getD i 0 then st.maxValue
             else mxOnA.getD i 0 + st.maxValue - mxOffA.getD i 0)) := by
  have key : ∀ onB offB : Nat, onB ≤ st.maxValue → offB ≤ st.maxValue →
      combinedBound onB offB st.maxValue =
        if offB < onB then st.maxValue else onB + st.maxValue - offB := by
    intro onB offB hon hoff
    unfold combinedBound
    by_cases h : offB < onB
    · rw [if_pos h, if_pos h]
    · rw [if_neg h, if_neg h]
      exact usub16_eq _ _ (by omega) (by omega)
  simp only [calBounds, h1, h2, h3, h4]
  rw [key _ _ hb1 hb2, key _ _ hb3 hb4]

/-- Witness for C4 on a single-sensor state exercising both branches
(calmin falls back to maxReading, calmax uses the subtraction). -/
theorem readCalibrated_combined_bounds_witness :
    ((⟨1, 100, some [10], some [60], some [20], some [90], 0⟩ :
        QTRState).calibratedMinimumOn = some [10]) ∧
    (([10] : List Nat).getD 0 0 ≤ 100) ∧ (([20] : List Nat).getD 0 0 ≤ 100) ∧
    (([60] : List Nat).getD 0 0 ≤ 100) ∧ (([90] : List Nat).getD 0 0 ≤ 100) ∧
    (100 < u16) ∧
    calBounds (⟨1, 100, some [10], some [60], some [20], some [90], 0⟩ :
        QTRState) .onAndOff 0 =
      some ((if ([20] : List Nat).getD 0 0 < ([10] : List Nat).getD 0 0 then 100
             else ([10] : List Nat).getD 0 0 + 100 - ([20] : List Nat).getD 0 0),
            (if ([90] : List Nat).getD 0 0 < ([60] : List Nat).getD 0 0 then 100
             else ([60] : List Nat).getD 0 0 + 100 - ([90] : List Nat).getD 0 0)) :=
  ⟨rfl, by decide, by decide, by decide, by decide, by decide,
   readCalibrated_combined_bounds
     (⟨1, 100, some [10], some [60], some [20], some [90], 0⟩ : QTRState) 0
     [10] [60] [20] [90] rfl rfl rfl rfl (by decide) (by decide) (by decide)
     (by decide) (by decide)⟩

/-- C3 counterexample: with inverted bounds calmin = 100 > calmax = 0
and raw = 0, the code computes with the wrapped unsigned denominator and
yields 0, while the specification's clamp formula
clamp((raw - calmin) * 1000 / (calmax - calmin), 0, 1000) yields 1000
(the quotient (-100000) / (-100) is exactly 1000). -/
theorem normalizeValue_clamp_formula_cex :
    normalizeValue 0 100 0 = 0 ∧ specNormalize 0 100 0 = 1000 ∧
    ((normalizeValue 0 100 0 : Int) ≠ specNormalize 0 100 0) := by
  refine ⟨by decide, by decide, ?_⟩
  intro h
  have h1 : normalizeValue 0 100 0 = 0 := by decide
  have h2 : specNormalize 0 100 0 = 1000 := by decide
  rw [h1, h2] at h
  exact absurd h (by decide)

/-- C3 amended: the normalized value equals the specification's clamp
formula whenever calmax strictly exceeds calmin (both 16-bit values) and
the intermediate quotient fits in the signed 16-bit int the code stores
it in; and whenever calmax = calmin the value is exactly 0 for every raw
input, with no division performed. -/
theorem normalizeValue_clamp_amended (raw calmin calmax : Nat)
    (h1 : calmin < calmax) (h2 : calmax < u16) (h3 : raw < u16)
    (hq1 : -32768 ≤ Int.tdiv (((raw : Int) - (calmin : Int)) * 1000)
        ((calmax : Int) - (calmin : Int)))
    (hq2 : Int.tdiv (((raw : Int) - (calmin : Int)) * 1000)
        ((calmax : Int) - (calmin : Int)) ≤ 32767) :
    ((normalizeValue raw calmin calmax : Int) = specNormalize raw calmin calmax) ∧
    (∀ r c : Nat, normalizeValue r c c = 0) := by
  constructor
  · have hden : usub16 calmax calmin = calmax - calmin :=
      usub16_eq _ _ (Nat.le_of_lt h1) (by omega)
    have hcast : ((calmax - calmin : Nat) : Int) = (calmax : Int) - (calmin : Int) := by
      omega
    set q := Int.tdiv (((raw : Int) - (calmin : Int)) * 1000)
      ((calmax : Int) - (calmin : Int)) with hqdef
    have hfit : toInt16 q = q := by
      unfold toInt16
      rw [Int.emod_eq_of_lt (by omega) (by omega)]
      omega
    unfold normalizeValue specNormalize clamp1000
    rw [hden, if_pos (by omega : calmax - calmin ≠ 0), hcast, ← hqdef, hfit]
    by_cases hneg : q < 0
    · rw [if_pos hneg]
      have hmin : min 1000 q = q := min_eq_right (by omega)
      rw [hmin, max_eq_left (by omega)]
      decide
    · rw [if_neg hneg]
      by_cases hbig : 1000 < q
      · rw [if_pos hbig]
        rw [min_eq_left (by omega), max_eq_right (by omega)]
        decide
      · rw [if_neg hbig]
        rw [min_eq_right (by omega), max_eq_right (by omega)]
        exact Int.toNat_of_nonneg (by omega)
  · intro r c
    unfold normalizeValue
    rw [usub16_self_eq_zero]
    simp [clamp1000]

/-- Witness for C3 amended at raw 35, calmin 10, calmax 60 (quotient
500, within the signed 16-bit range), and the degenerate case at
calmin = calmax = 9. -/
theorem normalizeValue_clamp_amended_witness :
    (10 < 60) ∧ (60 < u16) ∧ (35 < u16) ∧
    (-32768 ≤ Int.tdiv ((35 - 10) * 1000) (60 - 10)) ∧
    (Int.tdiv ((35 - 10) * 1000) (60 - 10) ≤ 32767) ∧
    ((normalizeValue 35 10 60 : Int) = specNormalize 35 10 60) ∧
    normalizeValue 7 9 9 = 0 :=
  ⟨by decide, by decide, by decide, by decide, by decide,
   (normalizeValue_clamp_amended 35 10 60 (by decide) (by decide) (by decide)
     (by decide) (by decide)).1,
   (normalizeValue_clamp_amended 35 10 60 (by decide) (by decide) (by decide)
     (by decide) (by decide)).2 7 9⟩

/-- C2 counterexample: on a fully calibrated single-sensor state,
readCalibrated in Manual mode is not rejected: neither guard matches
Manual, the read is performed and the value is normalized through the
combined on-and-off branch, so the output buffer (previously [7]) is
overwritten (here with [0]). -/
theorem readCalibrated_manual_not_noop_cex :
    readCalibrated ⟨1, 100, some [10], some [60], some [20], some [90], 0⟩
      .manual [50] [7] = some [0] ∧
    readCalibrated ⟨1, 100, some [10], some [60], some [20], some [90], 0⟩
      .manual [50] [7] ≠ some [7] := by
  refine ⟨by decide, ?_⟩
  intro h
  have h1 : readCalibrated ⟨1, 100, some [10], some [60], some [20], some [90], 0⟩
      .manual [50] [7] = some [0] := by decide
  rw [h1] at h
  exact absurd h (by decide)

/-- C2 amended: calibrate with Manual mode is a no-op (no calibration
arrays allocated or modified), but readCalibrated and readLine with
Manual mode are not rejected: when all four calibration arrays are
allocated they behave exactly as in the on-and-off mode, reading and
normalizing through the combined-bounds branch. -/
theorem manual_mode_amended (st : QTRState) (readsOn readsOff : List (List Nat))
    (raws buf : List Nat) (w : Bool) (mnOn mxOn mnOff mxOff : List Nat)
    (h1 : st.calibratedMinimumOn = some mnOn)
    (h2 : st.calibratedMaximumOn = some mxOn)
    (h3 : st.calibratedMinimumOff = some mnOff)
    (h4 : st.calibratedMaximumOff = some mxOff) :
    calibrate st .manual readsOn readsOff = st ∧
    readCalibrated st .manual raws buf = readCalibrated st .onAndOff raws buf ∧
    readLine st .manual raws buf w = readLine st .onAndOff raws buf w := by
  have hcal : calibrate st .manual readsOn readsOff = st := by
    unfold calibrate
    simp
  have hrc : readCalibrated st .manual raws buf =
      readCalibrated st .onAndOff raws buf := by
    have e1 : readCalibrated st .manual raws buf =
        ((List.range st.numSensors).mapM
          (fun i => (calBounds st .manual i).map
            (fun b => normalizeValue (raws.getD i 0) b.1 b.2))).map
          (fun vs => vs ++ buf.drop st.numSensors) := by
      unfold readCalibrated
      rw [if_neg (by simp), if_neg (by simp)]
    have e2 : readCalibrated st .onAndOff raws buf =
        ((List.range st.numSensors).mapM
          (fun i => (calBounds st .onAndOff i).map
            (fun b => normalizeValue (raws.getD i 0) b.1 b.2))).map
          (fun vs => vs ++ buf.drop st.numSensors) := by
      unfold readCalibrated
      rw [if_neg (by simp [h3, h4]), if_neg (by simp [h1, h2])]
    rw [e1, e2]
    rfl
  exact ⟨hcal, hrc, by unfold readLine; rw [hrc]⟩

/-- Witness for C2 amended on a fully calibrated single-sensor state. -/
theorem manual_mode_amended_witness :
    ((⟨1, 100, some [10], some [60], some [20], some [90], 0⟩ :
        QTRState).calibratedMinimumOn = some [10]) ∧
    ((⟨1, 100, some [10], some [60], some [20], some [90], 0⟩ :
        QTRState).calibratedMaximumOff = some [90]) ∧
    (calibrate (⟨1, 100, some [10], some [60], some [20], some [90], 0⟩ :
        QTRState) .manual [] [] =
      (⟨1, 100, some [10], some [60], some [20], some [90], 0⟩ : QTRState) ∧
    readCalibrated (⟨1, 100, some [10], some [60], some [20], some [90], 0⟩ :
        QTRState) .manual [50] [7] =
      readCalibrated (⟨1, 100, some [10], some [60], some [20], some [90], 0⟩ :
        QTRState) .onAndOff [50] [7] ∧
    readLine (⟨1, 100, some [10], some [60], some [20], some [90], 0⟩ :
        QTRState) .manual [50] [7] false =
      readLine (⟨1, 100, some [10], some [60], some [20], some [90], 0⟩ :
        QTRState) .onAndOff [50] [7] false) :=
  ⟨rfl, rfl,
   manual_mode_amended
     (⟨1, 100, some [10], some [60], some [20], some [90], 0⟩ : QTRState)
     [] [] [50] [7] false [10] [60] [20] [90] rfl rfl rfl rfl⟩

/-- C8 counterexample: in the odd-even read mode (a non-Manual mode)
with no calibration bounds initialized, readCalibrated does not return
early.  The first two conjuncts show that neither early-return guard of
QTRSensors.cpp lines 220-225 holds for this mode and state (the guards
test only the ON_AND_OFF/OFF/ON modes), even though every calibration
array is unallocated; the function therefore falls through to the
read() call at line 228, which overwrites the caller's buffer, and the
normalization loop's combined branch (lines 249-257) then dereferences
the unallocated arrays - undefined behavior, modeled as the result
none.  In particular the run does not return with the buffer [7]
unmodified, refuting the claim's "returns before performing any read or
write of the buffer" for this non-Manual mode. -/
theorem readCalibrated_uncalibrated_oddEven_cex :
    (¬ ((QTRReadMode.oddEven = QTRReadMode.onAndOff ∨
          QTRReadMode.oddEven = QTRReadMode.off) ∧
        ((⟨1, 100, none, none, none, none, 0⟩ :
            QTRState).calibratedMinimumOff = none ∨
          (⟨1, 100, none, none, none, none, 0⟩ :
            QTRState).calibratedMaximumOff = none))) ∧
    (¬ ((QTRReadMode.oddEven = QTRReadMode.onAndOff ∨
          QTRReadMode.oddEven = QTRReadMode.on) ∧
        ((⟨1, 100, none, none, none, none, 0⟩ :
            QTRState).calibratedMinimumOn = none ∨
          (⟨1, 100, none, none, none, none, 0⟩ :
            QTRState).calibratedMaximumOn = none))) ∧
    ((⟨1, 100, none, none, none, none, 0⟩ :
        QTRState).calibratedMinimumOn = none) ∧
    readCalibrated ⟨1, 100, none, none, none, none, 0⟩ .oddEven [5] [7] = none ∧
    readCalibrated ⟨1, 100, none, none, none, none, 0⟩ .oddEven [5] [7] ≠
      some [7] := by
  refine ⟨by decide, by decide, rfl, by decide, ?_⟩
  intro h
  have h1 : readCalibrated ⟨1, 100, none, none, none, none, 0⟩ .oddEven [5] [7] =
      none := by decide
  rw [h1] at h
  exact absurd h (by decide)

/-- C8 amended: for the modes the early-return guards of
QTRSensors.cpp lines 220-225 cover (On, Off, OnAndOff), calling
readCalibrated before the corresponding calibration bounds have been
initialized returns early and leaves the caller's buffer completely
unmodified, for every sensor count and buffer; the non-Manual odd-even
modes are excluded, as the counterexample shows. -/
theorem readCalibrated_uncalibrated_noop (st : QTRState) (mode : QTRReadMode)
    (raws buf : List Nat)
    (h : ((mode = .off ∨ mode = .onAndOff) ∧
            (st.calibratedMinimumOff = none ∨ st.calibratedMaximumOff = none)) ∨
         ((mode = .on ∨ mode = .onAndOff) ∧
            (st.calibratedMinimumOn = none ∨ st.calibratedMaximumOn = none))) :
    readCalibrated st mode raws buf = some buf := by
  unfold readCalibrated
  by_cases hg1 : (mode = .onAndOff ∨ mode = .off) ∧
      (st.calibratedMinimumOff = none ∨ st.calibratedMaximumOff = none)
  · rw [if_pos hg1]
  · rw [if_neg hg1]
    have hg2 : (mode = .onAndOff ∨ mode = .on) ∧
        (st.calibratedMinimumOn = none ∨ st.calibratedMaximumOn = none) := by
      rcases h with ⟨hm, hn⟩ | ⟨hm, hn⟩
      · exact absurd ⟨hm.elim (fun e => Or.inr e) (fun e => Or.inl e), hn⟩ hg1
      · exact ⟨hm.elim (fun e => Or.inr e) (fun e => Or.inl e), hn⟩
    rw [if_pos hg2]

/-- Witness for C8 amended: mode On on a freshly initialized state with
no calibration arrays leaves the buffer [7] untouched. -/
theorem readCalibrated_uncalibrated_noop_witness :
    (((QTRReadMode.on = QTRReadMode.off ∨ QTRReadMode.on = QTRReadMode.onAndOff) ∧
        ((⟨1, 100, none, none, none, none, 0⟩ :
            QTRState).calibratedMinimumOff = none ∨
          (⟨1, 100, none, none, none, none, 0⟩ :
            QTRState).calibratedMaximumOff = none)) ∨
      ((QTRReadMode.on = QTRReadMode.on ∨ QTRReadMode.on = QTRReadMode.onAndOff) ∧
        ((⟨1, 100, none, none, none, none, 0⟩ :
            QTRState).calibratedMinimumOn = none ∨
          (⟨1, 100, none, none, none, none, 0⟩ :
            QTRState).calibratedMaximumOn = none))) ∧
    readCalibrated ⟨1, 100, none, none, none, none, 0⟩ .on [5] [7] = some [7] :=
  ⟨Or.inr ⟨Or.inl rfl, Or.inl rfl⟩,
   readCalibrated_uncalibrated_noop ⟨1, 100, none, none, none, none, 0⟩ .on [5] [7]
     (Or.inr ⟨Or.inl rfl, Or.inl rfl⟩)⟩
